import Mathlib

/-!
Verification of the GlobalProtect log-cleaner core
(`gp-troubleshooting/gp-logs-cleaner/gateway_parser.py`).

The Python functions are shallowly embedded over `List Char` (file content /
log lines), an `Element` tree (the `xml.etree` element interface used by the
code: `findall`, `find`, `.text`), and a `DateTime` record mirroring
`datetime.datetime` (compared lexicographically by field, as Python does).
File I/O and backups are not modelled; each operation is modelled by the
content it writes plus the boolean it returns.
-/

namespace GPLogs

/-- Strict lexicographic comparison on lists of naturals.  Used both for
`datetime` comparison (field tuple) and Python string comparison
(code-point sequence). -/
def lexLt : List Nat → List Nat → Bool
  | _, [] => false
  | [], _ :: _ => true
  | a :: as, b :: bs => decide (a < b) || (decide (a = b) && lexLt as bs)

theorem lexLt_asymm : ∀ {a b : List Nat}, lexLt a b = true → lexLt b a = false
  | _, [], h => by simp [lexLt] at h
  | [], _ :: _, _ => by simp [lexLt]
  | a :: as, b :: bs, h => by
    simp only [lexLt, Bool.or_eq_true, Bool.and_eq_true, decide_eq_true_eq] at h ⊢
    rcases h with h | ⟨he, h⟩
    · simp only [Bool.or_eq_false_iff, Bool.and_eq_false_iff, decide_eq_false_iff_not]
      exact ⟨by omega, Or.inl (by omega)⟩
    · simp only [Bool.or_eq_false_iff, Bool.and_eq_false_iff, decide_eq_false_iff_not]
      exact ⟨by omega, Or.inr (lexLt_asymm h)⟩

theorem lexLt_irrefl (a : List Nat) : lexLt a a = false := by
  cases h : lexLt a a with
  | false => rfl
  | true => exact absurd h (by simp [lexLt_asymm h])

theorem lexLt_trans : ∀ {a b c : List Nat},
    lexLt a b = true → lexLt b c = true → lexLt a c = true
  | _, _, [], _, h2 => by simp [lexLt] at h2
  | [], b, _ :: _, _, _ => by simp [lexLt]
  | _ :: _, [], _, h1, _ => by simp [lexLt] at h1
  | a :: as, b :: bs, c :: cs, h1, h2 => by
    simp only [lexLt, Bool.or_eq_true, Bool.and_eq_true, decide_eq_true_eq] at h1 h2 ⊢
    rcases h1 with h1 | ⟨e1, h1⟩ <;> rcases h2 with h2 | ⟨e2, h2⟩
    · exact Or.inl (by omega)
    · exact Or.inl (by omega)
    · exact Or.inl (by omega)
    · exact Or.inr ⟨by omega, lexLt_trans h1 h2⟩

theorem lexLt_total_or_eq : ∀ (a b : List Nat),
    lexLt a b = true ∨ lexLt b a = true ∨ a = b
  | [], [] => Or.inr (Or.inr rfl)
  | [], _ :: _ => Or.inl (by simp [lexLt])
  | _ :: _, [] => Or.inr (Or.inl (by simp [lexLt]))
  | a :: as, b :: bs => by
    rcases Nat.lt_trichotomy a b with h | h | h
    · exact Or.inl (by simp [lexLt, h])
    · subst h
      rcases lexLt_total_or_eq as bs with h | h | h
      · exact Or.inl (by simp [lexLt, h])
      · exact Or.inr (Or.inl (by simp [lexLt, h]))
      · exact Or.inr (Or.inr (by simp [h]))
    · exact Or.inr (Or.inl (by simp [lexLt, h]))

/-- Subset of `datetime.datetime` carried by the parsed timestamps
(naive datetimes; `tzinfo` is never set by the code). -/
structure DateTime where
  year : Nat
  month : Nat
  day : Nat
  hour : Nat
  minute : Nat
  second : Nat
  microsecond : Nat
deriving DecidableEq

/-- The field tuple Python compares datetimes by. -/
def DateTime.key (t : DateTime) : List Nat :=
  [t.year, t.month, t.day, t.hour, t.minute, t.second, t.microsecond]

theorem DateTime.key_inj {a b : DateTime} (h : a.key = b.key) : a = b := by
  cases a; cases b
  simp only [DateTime.key, List.cons.injEq, and_true] at h
  simp_all

/-- Python `a < b` on datetimes: lexicographic on the field tuple. -/
def DateTime.ltB (a b : DateTime) : Bool := lexLt a.key b.key

/-- Python `a <= b` on datetimes. -/
def DateTime.leB (a b : DateTime) : Bool := DateTime.ltB a b || decide (a = b)

theorem DateTime.ltB_trans {a b c : DateTime}
    (h1 : DateTime.ltB a b = true) (h2 : DateTime.ltB b c = true) :
    DateTime.ltB a c = true := lexLt_trans h1 h2

theorem DateTime.ltB_irrefl (a : DateTime) : DateTime.ltB a a = false :=
  lexLt_irrefl a.key

theorem DateTime.ltB_asymm {a b : DateTime} (h : DateTime.ltB a b = true) :
    DateTime.ltB b a = false := lexLt_asymm h

/-- Totality: `a <= b` holds exactly when `b < a` fails. -/
theorem DateTime.leB_eq_not_ltB (a b : DateTime) :
    DateTime.leB a b = !(DateTime.ltB b a) := by
  rcases lexLt_total_or_eq a.key b.key with h | h | h
  · simp [DateTime.leB, DateTime.ltB, h, lexLt_asymm h]
  · have hne : ¬ a = b := by
      rintro rfl
      simp [DateTime.ltB, lexLt_irrefl] at h
    simp [DateTime.leB, DateTime.ltB, h, lexLt_asymm h, hne]
  · have : a = b := DateTime.key_inj h
    subst this
    simp [DateTime.leB, DateTime.ltB, lexLt_irrefl]

theorem DateTime.ltB_of_ltB_of_not_ltB {e s t : DateTime}
    (h1 : DateTime.ltB e s = true) (h2 : DateTime.ltB t s = false) :
    DateTime.ltB e t = true := by
  have h3 : DateTime.leB s t = true := by
    rw [DateTime.leB_eq_not_ltB, h2]
    rfl
  rcases Bool.or_eq_true _ _ |>.mp h3 with h4 | h4
  · exact DateTime.ltB_trans h1 h4
  · have : s = t := of_decide_eq_true h4
    subst this
    exact h1

/-- Gregorian leap-year rule used by `datetime`. -/
def isLeapYear (y : Nat) : Bool :=
  y % 4 == 0 && (y % 100 != 0 || y % 400 == 0)

def daysInMonth (y m : Nat) : Nat :=
  if m = 2 then (if isLeapYear y then 29 else 28)
  else if m = 4 ∨ m = 6 ∨ m = 9 ∨ m = 11 then 30
  else 31

/-- `datetime(year, month, day, hour, minute, second, microsecond)`:
`some` when the fields are in range, `none` for the `ValueError` the
constructor (and hence `strptime`) raises otherwise. -/
def mkDateTime (y mo d h mi s micro : Nat) : Option DateTime :=
  if 1 ≤ y ∧ y ≤ 9999 ∧ 1 ≤ mo ∧ mo ≤ 12 ∧ 1 ≤ d ∧ d ≤ daysInMonth y mo
      ∧ h ≤ 23 ∧ mi ≤ 59 ∧ s ≤ 59 ∧ micro ≤ 999999
  then some ⟨y, mo, d, h, mi, s, micro⟩ else none

/-- `dt.replace(microsecond=micro)`: `some` on success, `none` for the
`ValueError` raised when the value is out of range. -/
def DateTime.withMicrosecond (t : DateTime) (micro : Nat) : Option DateTime :=
  if micro ≤ 999999 then some { t with microsecond := micro } else none

/-! ### Timestamp parsing (`GatewayParser.parse_log_timestamp`) -/

def digitVal (c : Char) : Nat := c.toNat - '0'.toNat

/-- Match one literal character. -/
def expectChar (c : Char) : List Char → Option (List Char)
  | [] => none
  | x :: r => if x = c then some r else none

/-- Regex atom `\d{2}`. -/
def parseD2 : List Char → Option (Nat × List Char)
  | a :: b :: r =>
    if a.isDigit && b.isDigit then some (10 * digitVal a + digitVal b, r) else none
  | _ => none

/-- Regex atom `\d{3}`. -/
def parseD3 : List Char → Option (Nat × List Char)
  | a :: b :: c :: r =>
    if a.isDigit && b.isDigit && c.isDigit then
      some (100 * digitVal a + 10 * digitVal b + digitVal c, r)
    else none
  | _ => none

/-- Regex atom `\d{4}`. -/
def parseD4 : List Char → Option (Nat × List Char)
  | a :: b :: c :: d :: r =>
    if a.isDigit && b.isDigit && c.isDigit && d.isDigit then
      some (1000 * digitVal a + 100 * digitVal b + 10 * digitVal c + digitVal d, r)
    else none
  | _ => none

/-- Regex atom `\d+` (greedy; the following literal in both patterns is a
non-digit, so maximal munch is exact). -/
def skipDigits1 : List Char → Option (List Char)
  | [] => none
  | c :: r => if c.isDigit then some (r.dropWhile Char.isDigit) else none

/-- The numeric fields captured by either timestamp pattern:
`MM/DD/<year> HH:MM:SS:mmm` (`y` is the raw 4- or 2-digit year). -/
structure TsRaw where
  mo : Nat
  d : Nat
  y : Nat
  h : Nat
  mi : Nat
  s : Nat
  ms : Nat
deriving DecidableEq

/-- Match `\d{2}/\d{2}/<year> \d{2}:\d{2}:\d{2}:\d{3}` at the head of the
input, where `pYear` matches the year atom (`\d{4}` or `\d{2}`). -/
def matchStampAt (pYear : List Char → Option (Nat × List Char))
    (s0 : List Char) : Option TsRaw := do
  let (mo, s1) ← parseD2 s0
  let s2 ← expectChar '/' s1
  let (d, s3) ← parseD2 s2
  let s4 ← expectChar '/' s3
  let (y, s5) ← pYear s4
  let s6 ← expectChar ' ' s5
  let (h, s7) ← parseD2 s6
  let s8 ← expectChar ':' s7
  let (mi, s9) ← parseD2 s8
  let s10 ← expectChar ':' s9
  let (sec, s11) ← parseD2 s10
  let s12 ← expectChar ':' s11
  let (ms, _) ← parseD3 s12
  pure ⟨mo, d, y, h, mi, sec, ms⟩

/-- The PanGPA pattern `P\d+-T\d+ (\d{2}/\d{2}/\d{4} \d{2}:\d{2}:\d{2}:\d{3})`
matched at the head of the input. -/
def pangpaAt (s0 : List Char) : Option TsRaw := do
  let s1 ← expectChar 'P' s0
  let s2 ← skipDigits1 s1
  let s3 ← expectChar '-' s2
  let s4 ← expectChar 'T' s3
  let s5 ← skipDigits1 s4
  let s6 ← expectChar ' ' s5
  matchStampAt parseD4 s6

/-- The PanGPS pattern `(\d{2}/\d{2}/\d{2} \d{2}:\d{2}:\d{2}:\d{3})` matched
at the head of the input. -/
def pangpsAt (s0 : List Char) : Option TsRaw := matchStampAt parseD2 s0

/-- `re.search`: try the pattern at every start position, left to right. -/
def searchTs (f : List Char → Option TsRaw) : List Char → Option TsRaw
  | [] => f []
  | s@(_ :: rest) =>
    match f s with
    | some r => some r
    | none => searchTs f rest

/-- Common body of both dialect branches, with the year already resolved:
`strptime('... %H:%M:%S:%f')` (CPython right-pads the 3 captured millisecond
digits to 6, so `%f` yields `ms * 1000` microseconds), then
`dt.replace(microsecond=dt.microsecond * 1000)`, and on `ValueError` the
fallback `strptime` of the prefix without the `:mmm` part. -/
def stampToDt (year : Nat) (r : TsRaw) : Option DateTime :=
  match mkDateTime year r.mo r.d r.h r.mi r.s (r.ms * 1000) with
  | some dt =>
    match dt.withMicrosecond (dt.microsecond * 1000) with
    | some dt2 => some dt2
    | none => mkDateTime year r.mo r.d r.h r.mi r.s 0
  | none => mkDateTime year r.mo r.d r.h r.mi r.s 0

/-- `%y`: 0-68 maps to 2000-2068, 69-99 to 1969-1999. -/
def pangpsYear (yy : Nat) : Nat := if yy ≤ 68 then 2000 + yy else 1900 + yy

/-- The PanGPS half of `parse_log_timestamp` (reached when the PanGPA regex
does not match, or when both of its `strptime` attempts fail). -/
def pangpsSearch (line : List Char) : Option DateTime :=
  match searchTs pangpsAt line with
  | some r => stampToDt (pangpsYear r.y) r
  | none => none

/-- `GatewayParser.parse_log_timestamp` (gateway_parser.py lines 131-171). -/
def parse_log_timestamp (line : List Char) : Option DateTime :=
  match searchTs pangpaAt line with
  | some r =>
    match stampToDt r.y r with
    | some dt => some dt
    | none => pangpsSearch line
  | none => pangpsSearch line

/-! ### Time-window filtering (`GatewayParser.filter_logs_by_time`) -/

/-- The two `if` statements of the loop body (lines 203-209), applied to a
line whose timestamp parsed as `t`. -/
def keepLine (startT endT : Option DateTime) (t : DateTime) : Bool :=
  let keep := true
  let keep := match startT with
    | some st => if DateTime.ltB t st then false else keep
    | none => keep
  let keep := match endT with
    | some en => if DateTime.ltB en t then false else keep
    | none => keep
  keep

/-- One iteration of the loop (lines 194-214): lines without a parseable
timestamp are appended unconditionally, others according to `keepLine`;
removed lines bump `filtered_count`. -/
def filterStep (startT endT : Option DateTime)
    (acc : List (List Char) × Nat) (line : List Char) : List (List Char) × Nat :=
  match parse_log_timestamp line with
  | none => (acc.1 ++ [line], acc.2)
  | some t =>
    if keepLine startT endT t then (acc.1 ++ [line], acc.2) else (acc.1, acc.2 + 1)

def filterLoop (startT endT : Option DateTime) (lines : List (List Char)) :
    List (List Char) × Nat :=
  lines.foldl (filterStep startT endT) ([], 0)

/-- The loop's retention decision for a whole line (timestampless lines are
always kept). -/
def keepLineFull (startT endT : Option DateTime) (line : List Char) : Bool :=
  match parse_log_timestamp line with
  | none => true
  | some t => keepLine startT endT t

/-- Retention rule as the specification words it: keep exactly when no
timestamp is parsed, or (start absent or line time ≥ start) and (end absent
or line time ≤ end).  Spec-side definition, to be compared with
`keepLineFull` from the code. -/
def keepLineSpec (startT endT : Option DateTime) (line : List Char) : Bool :=
  match parse_log_timestamp line with
  | none => true
  | some t =>
    (match startT with
     | none => true
     | some st => DateTime.leB st t) &&
    (match endT with
     | none => true
     | some en => DateTime.leB t en)

/-- The window restriction of claim C9: when both bounds are present,
start ≤ end. -/
def windowOk (startT endT : Option DateTime) : Prop :=
  ∀ st en, startT = some st → endT = some en → DateTime.leB st en = true

/-- Observable outcome of `filter_logs_by_time`: the content written to the
output file and the returned boolean. -/
structure FilterOutcome where
  written : List (List Char)
  success : Bool
deriving DecidableEq

/-- `GatewayParser.filter_logs_by_time` (lines 173-245), at the level of file
content (the input is the `readlines` list).  The filtered lines are written
(line 221) before the statistics are printed; the line-removal percentage
`filtered_count/total_count*100` (line 229) raises `ZeroDivisionError` when
the file had zero lines, which the catch-all handler turns into `False`, so
the call succeeds exactly when the input had at least one line. -/
def filter_logs_by_time (startT endT : Option DateTime)
    (lines : List (List Char)) : FilterOutcome :=
  { written := (filterLoop startT endT lines).1
  , success := decide (lines.length ≠ 0) }

/-! ### Gateway-list removal (`GatewayParser.remove_gateway_list_from_log`)

The pattern `<gateway-list.*?</gateway-list>` with `re.DOTALL`: a match starts
at a position where the literal `<gateway-list` occurs and ends at the end of
the earliest later occurrence of the literal `</gateway-list>`; `re.search`
takes the leftmost such start, `re.sub` replaces every non-overlapping match,
scanning left to right. -/

def glOpen : List Char := "<gateway-list".toList

def glClose : List Char := "</gateway-list>".toList

/-- The replacement text of `re.sub` (line 100). -/
def glPlaceholder : List Char :=
  "<gateway-list-removed comment=\"Gateway list removed to reduce log size\"/>".toList

/-- `pat` occurs at the head of `s`. -/
def leadsWith : List Char → List Char → Bool
  | [], _ => true
  | _ :: _, [] => false
  | p :: ps, c :: cs => (p == c) && leadsWith ps cs

/-- Index of the earliest occurrence of `pat` in `s`, if any. -/
def findSub (pat : List Char) : List Char → Option Nat
  | [] => if leadsWith pat [] then some 0 else none
  | s@(_ :: rest) =>
    if leadsWith pat s then some 0
    else (findSub pat rest).map (· + 1)

/-- Leftmost match of `<gateway-list.*?</gateway-list>` (DOTALL, non-greedy):
returns the start index and the exclusive end index. -/
def findGLMatch : List Char → Option (Nat × Nat)
  | [] => none
  | s@(_ :: rest) =>
    if leadsWith glOpen s then
      match findSub glClose (s.drop glOpen.length) with
      | some k => some (0, glOpen.length + k + glClose.length)
      | none => (findGLMatch rest).map (fun p => (p.1 + 1, p.2 + 1))
    else (findGLMatch rest).map (fun p => (p.1 + 1, p.2 + 1))

/-- `re.sub` over all non-overlapping matches, left to right.  Each match
consumes at least the opening and closing literals, so `s.length` steps of
fuel always suffice. -/
def gatewaySubAux : Nat → List Char → List Char
  | 0, s => s
  | Nat.succ fuel, s =>
    match findGLMatch s with
    | none => s
    | some (i, e) => s.take i ++ glPlaceholder ++ gatewaySubAux fuel (s.drop e)

/-- `re.sub(r'<gateway-list.*?</gateway-list>', placeholder, content, DOTALL)`
(lines 99-102). -/
def reSubGatewayList (s : List Char) : List Char := gatewaySubAux s.length s

/-- Observable outcome of `remove_gateway_list_from_log`: the content written
and the returned boolean. -/
structure RemoveOutcome where
  written : List Char
  success : Bool
deriving DecidableEq

/-- `GatewayParser.remove_gateway_list_from_log` (lines 81-129) at content
level.  The cleaned content is written (line 113) before the statistics are
printed; the size-reduction percentage `removed_size/original_size*100`
(line 118) raises `ZeroDivisionError` when the original content was empty,
which the catch-all handler turns into `False`, so the call succeeds exactly
when the input was non-empty. -/
def remove_gateway_list_from_log (content : List Char) : RemoveOutcome :=
  { written := reSubGatewayList content
  , success := decide (content.length ≠ 0) }

/-! ### XML element interface and gateway extraction
(`GatewayParser.parse_log_file`, `_parse_gateway_xml`, `_get_text`)

The code consumes the parsed tree only through `root.findall('entry')`,
`entry.find(tag)` and `child.text`, so the tree is embedded directly as an
`Element` value; the text-to-tree step `ET.fromstring` stays abstract (a
parameter where it matters). -/

inductive Element : Type where
  | mk : String → Option String → List Element → Element

def Element.tag : Element → String
  | .mk t _ _ => t

def Element.text : Element → Option String
  | .mk _ x _ => x

def Element.children : Element → List Element
  | .mk _ _ c => c

/-- `ElementTree.findall(tag)`: the direct children with the given tag, in
document order. -/
def Element.findall (e : Element) (t : String) : List Element :=
  e.children.filter (fun c => c.tag == t)

/-- `ElementTree.find(tag)`: the first direct child with the given tag. -/
def Element.find (e : Element) (t : String) : Option Element :=
  e.children.find? (fun c => c.tag == t)

/-- `GatewayParser._get_text` (lines 76-79):
`child.text if child is not None and child.text else default` — both a
missing child and missing or empty (falsy) text yield the default. -/
def Element.getText (e : Element) (t : String) (dflt : String) : String :=
  match e.find t with
  | some c =>
    match c.text with
    | some s => if s = "" then dflt else s
    | none => dflt
  | none => dflt

def digitsVal (ds : List Char) : Nat :=
  ds.foldl (fun n c => 10 * n + digitVal c) 0

/-- Python `int(str)` on base-10 literals: optional surrounding whitespace,
optional sign, one or more ASCII digits; `none` for the `ValueError`
otherwise.  (CPython additionally accepts underscores between digits and a
few more Unicode space characters; no claim depends on those.) -/
def pyInt (s : String) : Option Int :=
  let cs :=
    ((s.toList.dropWhile Char.isWhitespace).reverse.dropWhile Char.isWhitespace).reverse
  match cs with
  | '+' :: ds => if !ds.isEmpty && ds.all Char.isDigit then some (Int.ofNat (digitsVal ds)) else none
  | '-' :: ds => if !ds.isEmpty && ds.all Char.isDigit then some (-(Int.ofNat (digitsVal ds))) else none
  | ds => if !ds.isEmpty && ds.all Char.isDigit then some (Int.ofNat (digitsVal ds)) else none

/-- The per-entry dictionary built at lines 52-68.  Every field except
`priority` is a string (empty-string default via `_get_text`); `priority` is
the `int(...)` of its text, defaulting to `'0'`. -/
structure GatewayInfo where
  gateway : String
  description : String
  priority : Int
  tunnel : String
  manual : String
  authenticated : String
  internal : String
  allow_tunnel : String
  last_hip_sent : String
deriving DecidableEq

/-- The loop body for one `entry` element (lines 52-68): `none` models the
`ValueError` from `int(...)` on a non-numeric priority, which aborts the
whole extraction. -/
def extractEntry (e : Element) : Option GatewayInfo :=
  match pyInt (e.getText "priority" "0") with
  | some p =>
    some { gateway := e.getText "gateway" ""
         , description := e.getText "description" ""
         , priority := p
         , tunnel := e.getText "tunnel" ""
         , manual := e.getText "manual" ""
         , authenticated := e.getText "authenticated" ""
         , internal := e.getText "internal" ""
         , allow_tunnel := e.getText "allow-tunnel" ""
         , last_hip_sent := e.getText "last_hip_sent" "" }
  | none => none

/-- Sequential mapping that aborts at the first failure, like the Python
`for` loop around `extractEntry`. -/
def mapOpt (f : α → Option β) : List α → Option (List β)
  | [] => some []
  | a :: l =>
    match f a with
    | none => none
    | some b =>
      match mapOpt f l with
      | none => none
      | some bs => some (b :: bs)

/-- Python code-point sequence of a string (`str` comparison is
lexicographic on these). -/
def strKey (s : String) : List Nat := s.toList.map Char.toNat

/-- The key comparison of `sorted(gateways, key=lambda x: (x['priority'],
x['description']))`: tuple comparison, numeric then lexicographic. -/
def gwLe (a b : GatewayInfo) : Bool :=
  decide (a.priority < b.priority) ||
    (decide (a.priority = b.priority) &&
      (lexLt (strKey a.description) (strKey b.description) ||
        decide (strKey a.description = strKey b.description)))

def gwLeProp (a b : GatewayInfo) : Prop := gwLe a b = true

instance : DecidableRel gwLeProp := fun a b => by
  unfold gwLeProp
  infer_instance

/-- `sorted(...)` with the `(priority, description)` key.  Python's sort is a
stable sort agreeing with any stable sort under a total preorder; insertion
sort is used here. -/
def sortGateways (gs : List GatewayInfo) : List GatewayInfo :=
  List.insertionSort gwLeProp gs

/-- The records in document order (the `gateways` list right before the
`sorted` call at line 70), `none` on a non-numeric priority. -/
def extractRecords (root : Element) : Option (List GatewayInfo) :=
  mapOpt extractEntry (root.findall "entry")

/-- `GatewayParser._parse_gateway_xml` (lines 46-74) on an already-parsed
root element: the sorted records, or `none` for the uncaught `ValueError`. -/
def parse_gateway_xml (root : Element) : Option (List GatewayInfo) :=
  (extractRecords root).map sortGateways

/-- The records `parse_log_file` ultimately returns for a file whose
gateway-list block parsed to `root`: the `ValueError` propagates to the
catch-all at line 42, which returns `[]`. -/
def parse_log_records (root : Element) : List GatewayInfo :=
  match parse_gateway_xml root with
  | some gs => gs
  | none => []

/-- `GatewayParser.parse_log_file` (lines 24-44) at content level,
parameterised by `ET.fromstring` (`xmlOf`, `none` = `ParseError`): no
gateway-list block means `[]` (line 34), a `ParseError` means `[]`
(line 74). -/
def extract_from_content (xmlOf : List Char → Option Element)
    (content : List Char) : List GatewayInfo :=
  match findGLMatch content with
  | none => []
  | some (i, e) =>
    match xmlOf ((content.drop i).take (e - i)) with
    | some root => parse_log_records root
    | none => []

/-- An entry's `priority` sub-element is missing, or present with missing or
empty text (the defaulting cases of `_get_text(entry, 'priority', '0')`). -/
def priorityAbsentOrEmpty (e : Element) : Prop :=
  e.find "priority" = none
    ∨ ∃ c, e.find "priority" = some c ∧ (c.text = none ∨ c.text = some "")

/-- An entry's `priority` sub-element is present with non-empty text that
`int(...)` rejects. -/
def priorityNonNumeric (e : Element) : Prop :=
  ∃ c t, e.find "priority" = some c ∧ c.text = some t ∧ t ≠ "" ∧ pyInt t = none

/-! ### Concrete data used by the claims -/

/-- The Dialect A line of claim C1 / spec scenario 2. -/
def c1Line : List Char := "P2104-T34307 09/24/2025 08:51:52:597 connecting".toList

/-- Content with a stray `</gateway-list>` after the first block: the
placeholder inserted by the first substitution begins with the literal
`<gateway-list`, so it pairs with the stray closer on a second pass. -/
def c2Bad : List Char := "<gateway-list>x</gateway-list></gateway-list>".toList

/-- Content whose cleaned form contains no `</gateway-list>`. -/
def c2Good : List Char := "a<gateway-list><entry/></gateway-list>b".toList

def c4Start : DateTime := ⟨2025, 9, 24, 9, 0, 0, 0⟩

def c4End : DateTime := ⟨2025, 9, 24, 8, 0, 0, 0⟩

def c4Stamped : List Char :=
  "P2104-T34307 09/24/2025 08:30:00:000 connected".toList

def c4Plain : List Char := "some non-log line".toList

def c5Entry1 : Element :=
  .mk "entry" none
    [ .mk "gateway" (some "gw1") []
    , .mk "description" (some "East") []
    , .mk "priority" (some "10") [] ]

def c5Entry2 : Element :=
  .mk "entry" none
    [ .mk "gateway" (some "gw2") []
    , .mk "description" (some "West") []
    , .mk "priority" (some "5") [] ]

/-- The root of spec scenario 1. -/
def c5Root : Element := .mk "gateway-list" none [c5Entry1, c5Entry2]

def c5East : GatewayInfo := ⟨"gw1", "East", 10, "", "", "", "", "", ""⟩

def c5West : GatewayInfo := ⟨"gw2", "West", 5, "", "", "", "", "", ""⟩

/-- An entry with no `priority` sub-element. -/
def c6NoPrio : Element := .mk "entry" none [ .mk "gateway" (some "gw") [] ]

/-- An entry whose `priority` text is not numeric. -/
def c6BadEntry : Element := .mk "entry" none [ .mk "priority" (some "abc") [] ]

def c6BadRoot : Element := .mk "gateway-list" none [c6BadEntry]

/-- An entry whose `priority` text is a negative numeral, which `int(...)`
accepts. -/
def c8Entry : Element := .mk "entry" none [ .mk "priority" (some "-5") [] ]

def c8Root : Element := .mk "gateway-list" none [c8Entry]

def c8Rec : GatewayInfo := ⟨"", "", -5, "", "", "", "", "", ""⟩

def c9Start : DateTime := ⟨2025, 1, 1, 0, 0, 0, 0⟩

def c9End : DateTime := ⟨2025, 12, 31, 0, 0, 0, 0⟩

/-! ### Helper lemmas -/

theorem gwLe_trans {a b c : GatewayInfo} (h1 : gwLe a b = true) (h2 : gwLe b c = true) :
    gwLe a c = true := by
  simp only [gwLe, Bool.or_eq_true, Bool.and_eq_true, decide_eq_true_eq] at h1 h2 ⊢
  rcases h1 with h1 | ⟨e1, d1⟩ <;> rcases h2 with h2 | ⟨e2, d2⟩
  · exact Or.inl (by omega)
  · exact Or.inl (by omega)
  · exact Or.inl (by omega)
  · refine Or.inr ⟨by omega, ?_⟩
    rcases d1 with d1 | d1 <;> rcases d2 with d2 | d2
    · exact Or.inl (lexLt_trans d1 d2)
    · exact Or.inl (d2 ▸ d1)
    · rw [d1]
      exact Or.inl d2
    · exact Or.inr (d1.trans d2)

theorem gwLe_total (a b : GatewayInfo) : gwLeProp a b ∨ gwLeProp b a := by
  unfold gwLeProp
  simp only [gwLe, Bool.or_eq_true, Bool.and_eq_true, decide_eq_true_eq]
  rcases Int.lt_trichotomy a.priority b.priority with h | h | h
  · exact Or.inl (Or.inl h)
  · rcases lexLt_total_or_eq (strKey a.description) (strKey b.description) with hd | hd | hd
    · exact Or.inl (Or.inr ⟨h, Or.inl hd⟩)
    · exact Or.inr (Or.inr ⟨h.symm, Or.inl hd⟩)
    · exact Or.inl (Or.inr ⟨h, Or.inr hd⟩)
  · exact Or.inr (Or.inl h)

instance : IsTrans GatewayInfo gwLeProp := ⟨fun _ _ _ => gwLe_trans⟩

instance : IsTotal GatewayInfo gwLeProp := ⟨gwLe_total⟩

theorem filterStep_eq (startT endT : Option DateTime) (acc : List (List Char))
    (n : Nat) (l : List Char) :
    filterStep startT endT (acc, n) l
      = if keepLineFull startT endT l then (acc ++ [l], n) else (acc, n + 1) := by
  unfold filterStep keepLineFull
  cases hp : parse_log_timestamp l
  · simp
  · rfl

theorem filterLoop_go (startT endT : Option DateTime) (lines : List (List Char))
    (acc : List (List Char)) (n : Nat) :
    lines.foldl (filterStep startT endT) (acc, n)
      = (acc ++ lines.filter (keepLineFull startT endT),
         n + lines.countP (fun l => !keepLineFull startT endT l)) := by
  induction lines generalizing acc n with
  | nil => simp
  | cons l rest ih =>
    rw [List.foldl_cons, filterStep_eq]
    by_cases hk : keepLineFull startT endT l = true
    · rw [if_pos hk, ih]
      simp [List.filter_cons, List.countP_cons, hk]
    · rw [if_neg hk, ih]
      have hk' : keepLineFull startT endT l = false := by
        cases h : keepLineFull startT endT l
        · rfl
        · exact absurd h hk
      simp [List.filter_cons, List.countP_cons, hk']
      omega

theorem filter_written (startT endT : Option DateTime) (lines : List (List Char)) :
    (filter_logs_by_time startT endT lines).written
      = lines.filter (keepLineFull startT endT) := by
  unfold filter_logs_by_time filterLoop
  rw [filterLoop_go]
  simp

/-- The loop's two-if decision agrees with the spec's ≥ start / ≤ end
formulation, by totality of the datetime order. -/
theorem keepLineFull_eq_spec (startT endT : Option DateTime) (line : List Char) :
    keepLineFull startT endT line = keepLineSpec startT endT line := by
  unfold keepLineFull keepLineSpec keepLine
  cases parse_log_timestamp line with
  | none => rfl
  | some t =>
    cases startT with
    | none =>
      cases endT with
      | none => simp
      | some en => cases h2 : DateTime.ltB en t <;> simp [h2, DateTime.leB_eq_not_ltB]
    | some st =>
      cases endT with
      | none => cases h1 : DateTime.ltB t st <;> simp [h1, DateTime.leB_eq_not_ltB]
      | some en =>
        cases h1 : DateTime.ltB t st <;> cases h2 : DateTime.ltB en t <;>
          simp [h1, h2, DateTime.leB_eq_not_ltB]

theorem gatewaySubAux_of_none {s : List Char} (h : findGLMatch s = none) :
    ∀ fuel, gatewaySubAux fuel s = s := by
  intro fuel
  cases fuel
  · rfl
  · simp [gatewaySubAux, h]

theorem reSub_of_none {s : List Char} (h : findGLMatch s = none) :
    reSubGatewayList s = s :=
  gatewaySubAux_of_none h _

theorem findSub_cons_none {pat : List Char} {c : Char} {rest : List Char}
    (h : findSub pat (c :: rest) = none) : findSub pat rest = none := by
  by_cases hl : leadsWith pat (c :: rest) = true
  · simp [findSub, hl] at h
  · simp only [findSub, hl, if_false, Bool.not_eq_true] at h
    rw [if_neg (by simp [hl])] at h
    exact Option.map_eq_none'.mp h

theorem findSub_drop_none {pat s : List Char} (h : findSub pat s = none) :
    ∀ n, findSub pat (s.drop n) = none := by
  induction s with
  | nil => intro n; simpa using h
  | cons c rest ih =>
    intro n
    cases n with
    | zero => simpa using h
    | succ m =>
      rw [List.drop_succ_cons]
      exact ih (findSub_cons_none h) m

theorem findGLMatch_none_of_no_close {s : List Char}
    (h : findSub glClose s = none) : findGLMatch s = none := by
  induction s with
  | nil => rfl
  | cons c rest ih =>
    have hrest := ih (findSub_cons_none h)
    have hdrop := findSub_drop_none h glOpen.length
    unfold findGLMatch
    by_cases hl : leadsWith glOpen (c :: rest) = true
    · rw [if_pos hl, hdrop, hrest]
      rfl
    · rw [if_neg hl, hrest]
      rfl

theorem mapOpt_eq_none_of_mem {α β : Type} {f : α → Option β} {l : List α} {a : α}
    (ha : a ∈ l) (hf : f a = none) : mapOpt f l = none := by
  induction l with
  | nil => cases ha
  | cons x xs ih =>
    rcases List.mem_cons.mp ha with rfl | hxs
    · simp [mapOpt, hf]
    · cases hfx : f x <;> simp [mapOpt, hfx, ih hxs]

theorem mapOpt_mem {α β : Type} {f : α → Option β} :
    ∀ {l : List α} {bs : List β}, mapOpt f l = some bs →
      ∀ b ∈ bs, ∃ a ∈ l, f a = some b := by
  intro l
  induction l with
  | nil =>
    intro bs h b hb
    simp [mapOpt] at h
    subst h
    cases hb
  | cons x xs ih =>
    intro bs h b hb
    unfold mapOpt at h
    cases hfx : f x with
    | none => rw [hfx] at h; cases h
    | some b0 =>
      rw [hfx] at h
      cases hm : mapOpt f xs with
      | none => rw [hm] at h; cases h
      | some bs0 =>
        rw [hm] at h
        have hbs : bs = b0 :: bs0 := by cases h; rfl
        subst hbs
        rcases List.mem_cons.mp hb with rfl | hb0
        · exact ⟨x, List.mem_cons_self x xs, hfx⟩
        · obtain ⟨a, ha, hfa⟩ := ih hm b hb0
          exact ⟨a, List.mem_cons_of_mem x ha, hfa⟩

/-! ### The claims -/

/-- C1: the claim says the millisecond component of a Dialect A (PanGPA)
timestamp is preserved (`...08:51:52:597` → microsecond 597000).  The code
instead always returns second precision for a nonzero millisecond field:
`%f` already right-pads `597` to 597000 microseconds, so the subsequent
`dt.replace(microsecond=dt.microsecond * 1000)` asks for 597000000, raises
`ValueError`, and the handler falls back to the `MM/DD/YYYY HH:MM:SS`
prefix.  This theorem evaluates the embedded code at the claim's own input:
the result is `2025-09-24 08:51:52` with microsecond 0, not 597000. -/
theorem c1_millisecond_lost :
    parse_log_timestamp c1Line = some ⟨2025, 9, 24, 8, 51, 52, 0⟩
      ∧ parse_log_timestamp c1Line ≠ some ⟨2025, 9, 24, 8, 51, 52, 597000⟩ := by
  constructor
  · decide
  · decide

/-- C2 counterexample: removal is not idempotent on every content.  On
`c2Bad` the first pass leaves `placeholder ++ "</gateway-list>"`; the
placeholder itself starts with the literal `<gateway-list`, so the second
pass matches again and produces different output. -/
theorem c2_not_idempotent :
    (remove_gateway_list_from_log (remove_gateway_list_from_log c2Bad).written).written
      ≠ (remove_gateway_list_from_log c2Bad).written := by
  decide

/-- C2 amended: removal is idempotent on every content whose once-cleaned
output contains no `</gateway-list>` occurrence (in particular whenever
every closing literal of the input lies inside a removed block); a stray
closer surviving after the placeholder defeats idempotence, as the
counterexample shows. -/
theorem c2_idempotent_of_no_close :
    ∀ content : List Char,
      findSub glClose (remove_gateway_list_from_log content).written = none →
      (remove_gateway_list_from_log
          (remove_gateway_list_from_log content).written).written
        = (remove_gateway_list_from_log content).written := by
  intro content h
  exact reSub_of_none (findGLMatch_none_of_no_close h)

/-- C2 witness: a well-formed content on which the amended idempotence
applies. -/
theorem c2_idempotent_witness :
    findSub glClose (remove_gateway_list_from_log c2Good).written = none
      ∧ (remove_gateway_list_from_log
            (remove_gateway_list_from_log c2Good).written).written
          = (remove_gateway_list_from_log c2Good).written :=
  ⟨by decide, c2_idempotent_of_no_close c2Good (by decide)⟩

/-- C7: content without a gateway-list block (no match of the pattern):
extraction returns the empty sequence — whatever `ET.fromstring` would do —
and removal writes the content unchanged. -/
theorem c7_no_gateway_block :
    ∀ (xmlOf : List Char → Option Element) (content : List Char),
      findGLMatch content = none →
      extract_from_content xmlOf content = []
        ∧ (remove_gateway_list_from_log content).written = content := by
  intro xmlOf content h
  constructor
  · unfold extract_from_content
    rw [h]
  · exact reSub_of_none h

/-- C7 witness: concrete content with no gateway-list block. -/
theorem c7_no_gateway_block_witness :
    findGLMatch ("hello world".toList) = none
      ∧ extract_from_content (fun _ => none) ("hello world".toList) = []
      ∧ (remove_gateway_list_from_log ("hello world".toList)).written
          = "hello world".toList := by
  have h := c7_no_gateway_block (fun _ => none) ("hello world".toList) (by decide)
  exact ⟨by decide, h.1, h.2⟩

/-- C10: on empty input both operations return `False` — the percentage
computation divides by the original size / line count of zero after the
output has already been written — rather than succeeding as a no-op; the
written content is the (empty) cleaned / filtered content. -/
theorem c10_empty_input_fails :
    (remove_gateway_list_from_log []).success = false
      ∧ (remove_gateway_list_from_log []).written = []
      ∧ ∀ startT endT : Option DateTime,
          (filter_logs_by_time startT endT []).success = false
            ∧ (filter_logs_by_time startT endT []).written = [] := by
  refine ⟨by decide, by decide, ?_⟩
  intro startT endT
  exact ⟨rfl, rfl⟩

/-- C3: the written output is exactly the input lines filtered by the
spec's retention rule — kept iff no timestamp parsed, or (start absent or
line time ≥ start) and (end absent or line time ≤ end) — in original order
(a sublist of the input); in particular every timestampless line satisfies
the rule whatever the bounds. -/
theorem c3_filter_retention :
    ∀ (startT endT : Option DateTime) (lines : List (List Char)),
      (filter_logs_by_time startT endT lines).written
          = lines.filter (keepLineSpec startT endT)
        ∧ List.Sublist ((filter_logs_by_time startT endT lines).written) lines
        ∧ ∀ line : List Char, parse_log_timestamp line = none →
            keepLineSpec startT endT line = true := by
  intro startT endT lines
  have hfun : keepLineFull startT endT = keepLineSpec startT endT :=
    funext (keepLineFull_eq_spec startT endT)
  refine ⟨?_, ?_, ?_⟩
  · rw [filter_written, hfun]
  · rw [filter_written]
    exact List.filter_sublist lines
  · intro line h
    unfold keepLineSpec
    rw [h]

/-- C3 witness: a timestampless line is retained by the rule. -/
theorem c3_filter_retention_witness :
    keepLineSpec (some c9Start) (some c9End) ("no stamp".toList) = true :=
  (c3_filter_retention (some c9Start) (some c9End) []).2.2 ("no stamp".toList)
    (by decide)

/-- C4 counterexample: with `start > end` the operation is not rejected
before filtering: it processes the file, writes output missing every
timestamped line, and returns success. -/
theorem c4_processes_inverted_window :
    DateTime.ltB c4End c4Start = true
      ∧ (filter_logs_by_time (some c4Start) (some c4End)
            [c4Stamped, c4Plain]).written = [c4Plain]
      ∧ (filter_logs_by_time (some c4Start) (some c4End)
            [c4Stamped, c4Plain]).success = true
      ∧ [c4Plain] ≠ [c4Stamped, c4Plain] := by
  refine ⟨by decide, by decide, by decide, by decide⟩

/-- C4 amended: no start/end validation exists.  With both bounds present
and start > end, the filter runs normally: both bound checks apply, so
exactly the lines without a parseable timestamp are written, and the call
reports success according to the usual rule (non-empty input). -/
theorem c4_no_validation :
    ∀ (st en : DateTime) (lines : List (List Char)),
      DateTime.ltB en st = true →
      (filter_logs_by_time (some st) (some en) lines).written
          = lines.filter (fun l => (parse_log_timestamp l).isNone)
        ∧ (filter_logs_by_time (some st) (some en) lines).success
            = decide (lines.length ≠ 0) := by
  intro st en lines h
  constructor
  · rw [filter_written]
    apply List.filter_congr
    intro l _
    unfold keepLineFull
    cases hp : parse_log_timestamp l with
    | none => simp
    | some t =>
      unfold keepLine
      cases h1 : DateTime.ltB t st with
      | true =>
        simp only [h1, Option.isNone_some]
        cases DateTime.ltB en t <;> simp
      | false =>
        have h2 : DateTime.ltB en t = true := DateTime.ltB_of_ltB_of_not_ltB h h1
        simp [h1, h2]
  · rfl

/-- C4 witness: the amended behaviour at a concrete inverted window. -/
theorem c4_no_validation_witness :
    DateTime.ltB c4End c4Start = true
      ∧ (filter_logs_by_time (some c4Start) (some c4End) [c4Plain]).written
          = [c4Plain].filter (fun l => (parse_log_timestamp l).isNone) :=
  ⟨by decide, (c4_no_validation c4Start c4End [c4Plain] (by decide)).1⟩

/-- C9: for a window with start ≤ end (either bound possibly absent),
filtering its own output with the same window reproduces that output. -/
theorem c9_filter_idempotent :
    ∀ (startT endT : Option DateTime) (lines : List (List Char)),
      windowOk startT endT →
      (filter_logs_by_time startT endT
          ((filter_logs_by_time startT endT lines).written)).written
        = (filter_logs_by_time startT endT lines).written := by
  intro startT endT lines _
  rw [filter_written, filter_written]
  apply List.filter_eq_self.mpr
  intro a ha
  exact List.of_mem_filter ha

/-- C9 witness: idempotence at a concrete valid window and input. -/
theorem c9_filter_idempotent_witness :
    windowOk (some c9Start) (some c9End)
      ∧ (filter_logs_by_time (some c9Start) (some c9End)
            ((filter_logs_by_time (some c9Start) (some c9End)
                [c4Stamped, c4Plain]).written)).written
          = (filter_logs_by_time (some c9Start) (some c9End)
              [c4Stamped, c4Plain]).written := by
  have hw : windowOk (some c9Start) (some c9End) := by
    intro st en h1 h2
    cases h1
    cases h2
    decide
  exact ⟨hw, c9_filter_idempotent (some c9Start) (some c9End) [c4Stamped, c4Plain] hw⟩

/-- C5: extraction returns the records sorted ascending by the pair
(priority, description) — numeric on priority, lexicographic on description
as tie-break — as a permutation of the records parsed in document order;
the result is a pure function of the input, hence deterministic. -/
theorem c5_sorted_records :
    ∀ (root : Element) (rs : List GatewayInfo),
      extractRecords root = some rs →
      parse_gateway_xml root = some (sortGateways rs)
        ∧ List.Sorted gwLeProp (sortGateways rs)
        ∧ List.Perm (sortGateways rs) rs := by
  intro root rs h
  refine ⟨?_, ?_, ?_⟩
  · unfold parse_gateway_xml
    rw [h]
    rfl
  · exact List.sorted_insertionSort gwLeProp rs
  · exact List.perm_insertionSort gwLeProp rs

/-- C5 witness: spec scenario 1 — East(10), West(5) in document order come
out as [West(5), East(10)]. -/
theorem c5_sorted_records_witness :
    extractRecords c5Root = some [c5East, c5West]
      ∧ parse_gateway_xml c5Root = some [c5West, c5East]
      ∧ List.Sorted gwLeProp [c5West, c5East] := by
  have h := c5_sorted_records c5Root [c5East, c5West] (by decide)
  refine ⟨by decide, ?_, ?_⟩
  · rw [h.1]
    decide
  · have he : sortGateways [c5East, c5West] = [c5West, c5East] := by decide
    have hs := h.2.1
    rwa [he] at hs

/-- C6: a missing or empty `priority` sub-element defaults to the integer 0,
and an entry whose `priority` text is present but not a base-10 integer
makes the whole file's extraction yield no records (the `ValueError`
propagates to the catch-all, which returns the empty list), rather than
skipping the entry. -/
theorem c6_priority_rules :
    (∀ e : Element, priorityAbsentOrEmpty e →
        ∃ g, extractEntry e = some g ∧ g.priority = 0)
      ∧ ∀ (root e : Element), e ∈ root.findall "entry" →
          priorityNonNumeric e → parse_log_records root = [] := by
  constructor
  · intro e he
    have hg : e.getText "priority" "0" = "0" := by
      unfold Element.getText
      rcases he with h | ⟨c, hc, ht⟩
      · rw [h]
      · rw [hc]
        rcases ht with ht | ht <;> simp [ht]
    have hp : pyInt "0" = some 0 := by decide
    unfold extractEntry
    rw [hg, hp]
    exact ⟨_, rfl, rfl⟩
  · intro root e he hn
    obtain ⟨c, t, hc, ht, hne, hp⟩ := hn
    have hg : e.getText "priority" "0" = t := by
      unfold Element.getText
      rw [hc]
      simp [ht, hne]
    have hext : extractEntry e = none := by
      unfold extractEntry
      rw [hg, hp]
    have hrec : extractRecords root = none := mapOpt_eq_none_of_mem he hext
    unfold parse_log_records parse_gateway_xml
    rw [hrec]
    rfl

/-- C6 witness: a priority-less entry extracts with priority 0, and a file
with one non-numeric priority extracts to no records. -/
theorem c6_priority_rules_witness :
    (∃ g, extractEntry c6NoPrio = some g ∧ g.priority = 0)
      ∧ parse_log_records c6BadRoot = [] := by
  have h := c6_priority_rules
  have hmem : c6BadEntry ∈ c6BadRoot.findall "entry" := by
    have : c6BadRoot.findall "entry" = [c6BadEntry] := rfl
    rw [this]
    exact List.mem_singleton_self c6BadEntry
  refine ⟨h.1 c6NoPrio (Or.inl rfl), h.2 c6BadRoot c6BadEntry hmem ?_⟩
  exact ⟨Element.mk "priority" (some "abc") [], "abc", rfl, rfl, by decide, by decide⟩

/-- C8 counterexample: priority is not always non-negative — an entry with
`<priority>-5</priority>` extracts to a record with priority −5. -/
theorem c8_negative_priority :
    parse_log_records c8Root = [c8Rec] ∧ c8Rec.priority < 0 := by
  constructor
  · decide
  · decide

/-- C8 amended: every extracted record takes each of its eight string fields
from `_get_text` with the empty-string default (so they are always-present
strings) and its priority from `int(...)` of the priority text defaulting to
`'0'` — always an integer, but possibly negative. -/
theorem c8_field_invariants :
    ∀ (root : Element) (gs : List GatewayInfo),
      parse_gateway_xml root = some gs →
      ∀ g ∈ gs, ∃ e ∈ root.findall "entry",
        g.gateway = e.getText "gateway" ""
          ∧ g.description = e.getText "description" ""
          ∧ pyInt (e.getText "priority" "0") = some g.priority
          ∧ g.tunnel = e.getText "tunnel" ""
          ∧ g.manual = e.getText "manual" ""
          ∧ g.authenticated = e.getText "authenticated" ""
          ∧ g.internal = e.getText "internal" ""
          ∧ g.allow_tunnel = e.getText "allow-tunnel" ""
          ∧ g.last_hip_sent = e.getText "last_hip_sent" "" := by
  intro root gs hgs g hg
  unfold parse_gateway_xml at hgs
  cases hrs : extractRecords root with
  | none =>
    rw [hrs] at hgs
    cases hgs
  | some rs =>
    rw [hrs, Option.map_some'] at hgs
    cases hgs
    have hmem : g ∈ rs := (List.perm_insertionSort gwLeProp rs).mem_iff.mp hg
    obtain ⟨e, he, hfe⟩ := mapOpt_mem hrs g hmem
    refine ⟨e, he, ?_⟩
    unfold extractEntry at hfe
    cases hp : pyInt (e.getText "priority" "0") with
    | none =>
      rw [hp] at hfe
      cases hfe
    | some p =>
      rw [hp] at hfe
      cases hfe
      exact ⟨rfl, rfl, rfl, rfl, rfl, rfl, rfl, rfl, rfl⟩

/-- C8 witness: the amended field description at the concrete negative
example. -/
theorem c8_field_invariants_witness :
    ∃ e ∈ c8Root.findall "entry",
      c8Rec.gateway = e.getText "gateway" ""
        ∧ c8Rec.description = e.getText "description" ""
        ∧ pyInt (e.getText "priority" "0") = some c8Rec.priority
        ∧ c8Rec.tunnel = e.getText "tunnel" ""
        ∧ c8Rec.manual = e.getText "manual" ""
        ∧ c8Rec.authenticated = e.getText "authenticated" ""
        ∧ c8Rec.internal = e.getText "internal" ""
        ∧ c8Rec.allow_tunnel = e.getText "allow-tunnel" ""
        ∧ c8Rec.last_hip_sent = e.getText "last_hip_sent" "" :=
  c8_field_invariants c8Root [c8Rec] (by decide) c8Rec (by decide)

end GPLogs
